import Mathlib

/-!
Verification development for a small PostgreSQL migration runner
(`src/index.js`).  The program discovers migration directories named
`"{version}-{name}"`, keeps a bookkeeping table `"Migration"(version BIGINT
PRIMARY KEY, name VARCHAR)` inside the target database, and runs each
up/down script together with the corresponding bookkeeping INSERT/DELETE
inside one SQL transaction.

The embedding below models:
  * the database state (existence of the `"Migration"` table, its rows and
    an abstract schema of type `σ` acted on by script texts),
  * the `transaction` helper (BEGIN / statement batch / COMMIT, with
    ROLLBACK and rethrow on error, and `client.release()` in `finally`),
  * `fetchMigrations`, `migrate`, `rollback` and `create`,
  * the directory-listing front end (`getDirectories` keeps the listing
    order of `readdirSync`; it applies no sort of its own),
  * the `upperFirst(camelCase(title))` name normalisation of `create`
    (ASCII model of the lodash functions).

Script texts are opaque strings; their effect on the abstract schema is a
parameter `exec : ScriptSem σ`, where `exec q s` either returns the new
schema or fails with the database error raised by the script.
-/

/-- One row of the bookkeeping table `"Migration"`.  The `version` column is
stored here as its decimal string, exactly the form in which the runner
compares it (`row.version` from `pg` is a string for `BIGINT`, and the
catalog side of the comparison is the string prefix of the directory
name). -/
structure Row where
  version : String
  name : String
deriving DecidableEq, Repr

/-- The state of the target database: whether the bookkeeping table
`"Migration"` exists, its rows, and the rest of the schema, abstracted as a
value of type `σ` that up/down scripts act on. -/
structure DB (σ : Type) where
  tableExists : Bool
  rows : List Row
  schema : σ
deriving DecidableEq, Repr

/-- Semantics of script texts: running script `q` against schema `s` either
yields a new schema or fails with a database error message. -/
def ScriptSem (σ : Type) : Type := String → σ → Except String σ

/-- The error PostgreSQL raises when a statement reads or writes the
bookkeeping table before it has been created. -/
def missingTableError : String := "relation \"Migration\" does not exist"

/-- A statement occurring in one of the runner's SQL batches: the
`CREATE TABLE IF NOT EXISTS "Migration" ...` statement, the bookkeeping
`INSERT INTO "Migration" VALUES (version, 'name')`, the bookkeeping
`DELETE FROM "Migration" WHERE version = version`, or an opaque migration
script text. -/
inductive Stmt where
  | createTable : Stmt
  | insert (version name : String) : Stmt
  | delete (version : String) : Stmt
  | script (q : String) : Stmt
deriving DecidableEq, Repr

/-- Effect of a single statement on the database state.  `insert` enforces
the `PRIMARY KEY` constraint on `version`; `insert` and `delete` fail when
the table does not exist; `createTable` has `IF NOT EXISTS` semantics. -/
def execStmt (exec : ScriptSem σ) (db : DB σ) : Stmt → Except String (DB σ)
  | .createTable => .ok { db with tableExists := true }
  | .insert v n =>
    if db.tableExists then
      if v ∈ db.rows.map (·.version) then
        .error "duplicate key value violates unique constraint"
      else
        .ok { db with rows := db.rows ++ [⟨v, n⟩] }
    else
      .error missingTableError
  | .delete v =>
    if db.tableExists then
      .ok { db with rows := db.rows.filter fun r => r.version ≠ v }
    else
      .error missingTableError
  | .script q =>
    match exec q db.schema with
    | .ok s => .ok { db with schema := s }
    | .error e => .error e

/-- Run the statements of one batch in order, stopping at the first
failure. -/
def runStmts (exec : ScriptSem σ) : List Stmt → DB σ → Except String (DB σ)
  | [], db => .ok db
  | s :: rest, db =>
    match execStmt exec db s with
    | .ok db2 => runStmts exec rest db2
    | .error e => .error e

/-- Connection-level fault model for one `transaction` call: whether the
`BEGIN`, `COMMIT` and `ROLLBACK` round trips themselves throw (`some e`
throws error `e`, `none` succeeds). -/
structure ConnFaults where
  beginErr : Option String
  commitErr : Option String
  rollbackErr : Option String
deriving DecidableEq, Repr

/-- Observable outcome of one `transaction` call: the resulting database
state, the error the promise rejects with (`none` = committed), and whether
`client.release()` ran. -/
structure TxOutcome (σ : Type) where
  db : DB σ
  error : Option String
  released : Bool
deriving DecidableEq, Repr

/-- Model of `transaction(query)` in `src/index.js`:

  * acquire a client from the pool,
  * `try`: `BEGIN;` — run the statement batch — `COMMIT;`
  * `catch`: `ROLLBACK` and rethrow the caught error (if the `ROLLBACK`
    round trip itself throws, that error replaces the original one, as in
    the JavaScript `catch` block),
  * `finally`: `client.release()` — this runs on every path.

A transaction that does not commit leaves the database state unchanged
(the server never makes uncommitted work visible). -/
def transactionFull (exec : ScriptSem σ) (f : ConnFaults) (stmts : List Stmt)
    (db : DB σ) : TxOutcome σ :=
  match f.beginErr with
  | some e =>
    match f.rollbackErr with
    | some e2 => ⟨db, some e2, true⟩
    | none => ⟨db, some e, true⟩
  | none =>
    match runStmts exec stmts db with
    | .error e =>
      match f.rollbackErr with
      | some e2 => ⟨db, some e2, true⟩
      | none => ⟨db, some e, true⟩
    | .ok db2 =>
      match f.commitErr with
      | some e =>
        match f.rollbackErr with
        | some e2 => ⟨db, some e2, true⟩
        | none => ⟨db, some e, true⟩
      | none => ⟨db2, none, true⟩

/-- A fault-free connection: `BEGIN`, `COMMIT` and `ROLLBACK` round trips
all succeed. -/
def noFaults : ConnFaults := ⟨none, none, none⟩

/-- The runner's view of `transaction`: with a fault-free connection the
call either commits the whole batch or rolls it back and rejects with the
first statement's error. -/
def transaction (exec : ScriptSem σ) (stmts : List Stmt) (db : DB σ) :
    Except String (DB σ) :=
  match (transactionFull exec noFaults stmts db).error with
  | some e => .error e
  | none => .ok (transactionFull exec noFaults stmts db).db

/-- Model of `fetchMigrations()`: runs `SELECT * FROM "Migration";` through
`transaction` and maps the rows to their `version` column.  The `SELECT`
has no effect on the state; its only failure mode relevant here is the
relation-missing error when the table has never been created, which the
transaction rolls back and propagates. -/
def fetchMigrations (db : DB σ) : Except String (List String) :=
  if db.tableExists then .ok (db.rows.map (·.version))
  else .error missingTableError

/-- Splitting a character list at `'-'` separators (accumulator holds the
current chunk, reversed). -/
def splitChar : List Char → List Char → List (List Char)
  | [], acc => [acc.reverse]
  | c :: cs, acc =>
    if c = '-' then acc.reverse :: splitChar cs [] else splitChar cs (c :: acc)

/-- Model of JavaScript `s.split('-')`. -/
def splitDash (s : String) : List String :=
  (splitChar s.data []).map List.asString

/-- The `version` part of a directory basename: in the source,
`const [version, name] = directory.split('/').pop().split('-')` — the
`join`/`pop` pair cancels, so this is the part before the first `'-'`. -/
def versionOf (dirName : String) : String := (splitDash dirName).headD ""

/-- The `name` part of a directory basename: the second element of the
split.  When the basename has no `'-'`, the JavaScript destructuring leaves
`name` `undefined`, which later interpolates as the string `"undefined"`. -/
def nameOf (dirName : String) : String :=
  ((splitDash dirName).drop 1).headD "undefined"

/-- Numeric reading of a directory basename's key: the decimal value of the
`version` prefix (this is how `BIGINT` reads it; used only to *state*
ordering properties, never by the runner itself). -/
def digitsToNat (l : List Char) : Nat :=
  l.foldl (fun a c => a * 10 + (c.toNat - 48)) 0

/-- The key of a migration directory as a number. -/
def keyNat (dirName : String) : Nat := digitsToNat (versionOf dirName).data

/-- One migration unit as the runner sees it: the directory basename
`"{version}-{name}"` and the contents of its `up.sql` and `down.sql`
files (missing or empty files read as `""`). -/
structure MigUnit where
  dirName : String
  up : String
  down : String
deriving DecidableEq, Repr

/-- One entry of the migrations directory listing, in the order
`readdirSync` yields it. -/
structure DirEnt where
  name : String
  isDir : Bool
deriving DecidableEq, Repr

/-- Model of `isDirectory` (the `lstatSync(...).isDirectory()` filter). -/
def isDirectory (e : DirEnt) : Bool := e.isDir

/-- Model of `getDirectories`: `readdirSync(source).map(name =>
join(source, name)).filter(isDirectory)`.  The listing order of
`readdirSync` is preserved unchanged — no sort is applied. -/
def getDirectories (listing : List DirEnt) : List String :=
  (listing.filter isDirectory).map (·.name)

/-- The catalog the runner works on: each directory of the listing paired
with the contents of its `up.sql` and `down.sql` files
(`files d f` is the content of file `f` inside directory `d`). -/
def catalogUnits (listing : List DirEnt) (files : String → String → String) :
    List MigUnit :=
  (getDirectories listing).map fun d => ⟨d, files d "up.sql", files d "down.sql"⟩

/-- Result of one `migrate`/`rollback` invocation: the final database
state, the basenames of the units whose migration transaction was sent to
the database (in execution order, including a final transaction that was
rolled back), and the error the run rejected with (`none` = ran to
`process.exit()`). -/
structure RunResult (σ : Type) where
  db : DB σ
  executed : List String
  error : Option String
deriving DecidableEq, Repr

/-- The set of versions currently recorded as applied. -/
def appliedVersions (db : DB σ) : List String := db.rows.map (·.version)

/-- The per-unit transaction of `migrate`:
`INSERT INTO "Migration" VALUES (version, 'name');` followed by the unit's
up script, in one transaction. -/
def applyUnit (exec : ScriptSem σ) (u : MigUnit) (db : DB σ) :
    Except String (DB σ) :=
  transaction exec [.insert (versionOf u.dirName) (nameOf u.dirName), .script u.up] db

/-- The loop of `migrate`: walk the directories in listing order; skip a
unit whose version is in the fetched `migrations` snapshot; skip a unit
whose `up.sql` is empty (`if (!query) continue;`); otherwise run the
bookkeeping INSERT plus the up script in one transaction, aborting the run
on the first failure (the rejection is not caught). -/
def migrateLoop (exec : ScriptSem σ) (migrations : List String) :
    List MigUnit → DB σ → RunResult σ
  | [], db => ⟨db, [], none⟩
  | u :: rest, db =>
    if versionOf u.dirName ∈ migrations then
      migrateLoop exec migrations rest db
    else if u.up = "" then
      migrateLoop exec migrations rest db
    else
      match applyUnit exec u db with
      | .error e => ⟨db, [u.dirName], some e⟩
      | .ok db2 =>
        let r := migrateLoop exec migrations rest db2
        ⟨r.db, u.dirName :: r.executed, r.error⟩

/-- Model of `migrate()`: create the bookkeeping table if missing, fetch
the applied versions once, then run the loop over the catalog in listing
order. -/
def migrate (exec : ScriptSem σ) (units : List MigUnit) (db : DB σ) :
    RunResult σ :=
  match transaction exec [.createTable] db with
  | .error e => ⟨db, [], some e⟩
  | .ok db1 =>
    match fetchMigrations db1 with
    | .error e => ⟨db1, [], some e⟩
    | .ok migrations => migrateLoop exec migrations units db1

/-- Running `migrate` `n` times in a row against the same catalog,
collecting every executed transaction. -/
def migrateRuns (exec : ScriptSem σ) (units : List MigUnit) :
    Nat → DB σ → DB σ × List String
  | 0, db => (db, [])
  | n + 1, db =>
    let r := migrate exec units db
    let rest := migrateRuns exec units n r.db
    (rest.1, r.executed ++ rest.2)

/-- The per-unit transaction of `rollback`:
`DELETE FROM "Migration" WHERE version = version;` followed by the unit's
down script, in one transaction. -/
def revertUnit (exec : ScriptSem σ) (u : MigUnit) (db : DB σ) :
    Except String (DB σ) :=
  transaction exec [.delete (versionOf u.dirName), .script u.down] db

/-- The loop of `rollback`: walk the *reversed* directory listing; before
each unit, break when the `all` flag is unset and something was already
reverted (`if (!options.all && removedCount > 0) break;`); skip units not
recorded as applied in the fetched snapshot; skip units whose `down.sql`
is empty; otherwise run the bookkeeping DELETE plus the down script in one
transaction and increment `removedCount`. -/
def rollbackLoop (exec : ScriptSem σ) (all : Bool) (migrations : List String) :
    List MigUnit → Nat → DB σ → RunResult σ
  | [], _, db => ⟨db, [], none⟩
  | u :: rest, removedCount, db =>
    if all = false ∧ 0 < removedCount then ⟨db, [], none⟩
    else if versionOf u.dirName ∉ migrations then
      rollbackLoop exec all migrations rest removedCount db
    else if u.down = "" then
      rollbackLoop exec all migrations rest removedCount db
    else
      match revertUnit exec u db with
      | .error e => ⟨db, [u.dirName], some e⟩
      | .ok db2 =>
        let r := rollbackLoop exec all migrations rest (removedCount + 1) db2
        ⟨r.db, u.dirName :: r.executed, r.error⟩

/-- Model of `rollback(options)`: fetch the applied versions (without ever
creating the bookkeeping table first), then run the loop over the reversed
listing starting with `removedCount = 0`. -/
def rollback (exec : ScriptSem σ) (all : Bool) (units : List MigUnit)
    (db : DB σ) : RunResult σ :=
  match fetchMigrations db with
  | .error e => ⟨db, [], some e⟩
  | .ok migrations => rollbackLoop exec all migrations units.reverse 0 db

/-- ASCII model of lodash `upperFirst`: the first character is upper-cased,
the rest is left unchanged. -/
def upperFirst (s : String) : String :=
  match s.data with
  | [] => ""
  | c :: cs => (c.toUpper :: cs).asString

/-- Word splitting for the ASCII model of lodash `camelCase`: maximal runs
matching `[0-9]+`, `[A-Z]?[a-z]+` or `[A-Z]+` (an upper-case run followed
by a lower-case letter yields its last letter to the next word, as in
`"FOOBar" → ["FOO", "Bar"]`); every other character separates words.  The
fuel argument only serves structural termination; each step consumes at
least one character, so `l.length` fuel is always enough. -/
def wordsAux : Nat → List Char → List (List Char)
  | 0, _ => []
  | _, [] => []
  | fuel + 1, c :: cs =>
    if c.isDigit then
      (c :: cs.takeWhile Char.isDigit) :: wordsAux fuel (cs.dropWhile Char.isDigit)
    else if c.isLower then
      (c :: cs.takeWhile Char.isLower) :: wordsAux fuel (cs.dropWhile Char.isLower)
    else if c.isUpper then
      match cs with
      | d :: _ =>
        if d.isLower then
          (c :: cs.takeWhile Char.isLower) :: wordsAux fuel (cs.dropWhile Char.isLower)
        else
          match cs.dropWhile Char.isUpper with
          | e :: rest2 =>
            if e.isLower then
              (c :: cs.takeWhile Char.isUpper).dropLast ::
                wordsAux fuel (((c :: cs.takeWhile Char.isUpper).getLastD 'A') :: e :: rest2)
            else
              (c :: cs.takeWhile Char.isUpper) :: wordsAux fuel (e :: rest2)
          | [] => [c :: cs.takeWhile Char.isUpper]
      | [] => [[c]]
    else
      wordsAux fuel cs

/-- The words of a string, per the ASCII model of lodash `words`. -/
def words (s : String) : List String :=
  (wordsAux (s.data.length + 1) s.data).map List.asString

/-- String lower-casing, character by character (ASCII model of JavaScript
`toLowerCase`). -/
def lowerStr (s : String) : String := (s.data.map Char.toLower).asString

/-- lodash `capitalize`: lower-case the word, then upper-case its first
character. -/
def capitalize (s : String) : String := upperFirst (lowerStr s)

/-- ASCII model of lodash `camelCase`: the first word lower-cased, every
later word capitalized, all joined without separators. -/
def camelCase (s : String) : String :=
  match words s with
  | [] => ""
  | w :: ws => (ws.map capitalize).foldl (· ++ ·) (lowerStr w)

/-- The display name `create` derives from a title:
`upperFirst(camelCase(title))`. -/
def pascalName (title : String) : String := upperFirst (camelCase title)

/-- Decimal digits of a natural number, most significant first (the fuel
argument only serves structural termination; `n` needs at most `n + 1`
steps). -/
def natDecimalAux : Nat → Nat → List Char → List Char
  | 0, _, acc => acc
  | fuel + 1, n, acc =>
    if n < 10 then Char.ofNat (48 + n % 10) :: acc
    else natDecimalAux fuel (n / 10) (Char.ofNat (48 + n % 10) :: acc)

/-- The decimal string of a natural number, as JavaScript template-literal
interpolation renders `Date.now()`. -/
def natDecimal (n : Nat) : String := ⟨natDecimalAux (n + 1) n []⟩

/-- Model of `create(title)`: the directory
`"migration/{Date.now()}-{upperFirst(camelCase(title))}"` is created
(`mkdirSync` with `recursive: true` does not fail when it already exists)
and `up.sql` / `down.sql` are opened with flag `'w'`, leaving both empty.
`now` is the value `Date.now()` returned for this call; the filesystem is
the resulting catalog. -/
def create (now : Nat) (title : String) (fs : List MigUnit) : List MigUnit :=
  let dirName := natDecimal now ++ "-" ++ pascalName title
  if ∃ u ∈ fs, u.dirName = dirName then
    fs.map fun u => if u.dirName = dirName then ⟨dirName, "", ""⟩ else u
  else
    fs ++ [⟨dirName, "", ""⟩]

/-- A concrete script semantics used for witnesses and counterexamples:
the abstract schema is the log of executed scripts; the distinguished
script text `"BAD"` fails, every other script appends itself to the log. -/
def demoSem : ScriptSem (List String) :=
  fun q s => if q = "BAD" then .error "script error" else .ok (s ++ [q])

/-! ## Helper lemmas -/

/-- With a fault-free connection, `transaction` commits the whole batch or
rejects with the error of the first failing statement, leaving the state
unchanged. -/
theorem transaction_def (exec : ScriptSem σ) (stmts : List Stmt) (db : DB σ) :
    transaction exec stmts db = runStmts exec stmts db := by
  unfold transaction transactionFull noFaults
  cases h : runStmts exec stmts db <;> simp [h]

/-- A successful `applyUnit` transaction appends exactly the unit's
bookkeeping row, keeps the table, and sets the schema to the result of the
up script; in particular the unit's version was not yet recorded. -/
theorem applyUnit_ok (exec : ScriptSem σ) (u : MigUnit) (db db2 : DB σ)
    (h : applyUnit exec u db = .ok db2) :
    db2.rows = db.rows ++ [⟨versionOf u.dirName, nameOf u.dirName⟩] ∧
    db2.tableExists = db.tableExists ∧
    versionOf u.dirName ∉ appliedVersions db := by
  rw [applyUnit, transaction_def] at h
  by_cases ht : db.tableExists
  · by_cases hv : versionOf u.dirName ∈ db.rows.map (·.version)
    · simp [runStmts, execStmt, ht, hv] at h
    · cases hx : exec u.up db.schema with
      | ok s =>
        simp [runStmts, execStmt, ht, hv, hx] at h
        subst h
        exact ⟨rfl, ht.symm, hv⟩
      | error e =>
        simp [runStmts, execStmt, ht, hv, hx] at h
  · simp [runStmts, execStmt, ht] at h


/-- `migrate` unfolded: the table-creation transaction always succeeds, the
fetch then sees the original rows, and the loop starts on the state with
the table present. -/
theorem migrate_def (exec : ScriptSem σ) (units : List MigUnit) (db : DB σ) :
    migrate exec units db =
      migrateLoop exec (appliedVersions db) units { db with tableExists := true } := by
  unfold migrate
  rw [transaction_def]
  simp [runStmts, execStmt, fetchMigrations, appliedVersions]

/-- Loop equation: a unit recorded in the fetched snapshot is skipped. -/
theorem migrateLoop_cons_mem (exec : ScriptSem σ) (migs : List String)
    (u : MigUnit) (rest : List MigUnit) (db : DB σ)
    (h1 : versionOf u.dirName ∈ migs) :
    migrateLoop exec migs (u :: rest) db = migrateLoop exec migs rest db := by
  rw [migrateLoop, if_pos h1]

/-- Loop equation: a pending unit with an empty up script is skipped. -/
theorem migrateLoop_cons_empty (exec : ScriptSem σ) (migs : List String)
    (u : MigUnit) (rest : List MigUnit) (db : DB σ)
    (h1 : versionOf u.dirName ∉ migs) (h2 : u.up = "") :
    migrateLoop exec migs (u :: rest) db = migrateLoop exec migs rest db := by
  rw [migrateLoop, if_neg h1, if_pos h2]

/-- Loop equation: a failing migration transaction aborts the run with the
state unchanged. -/
theorem migrateLoop_cons_fail (exec : ScriptSem σ) (migs : List String)
    (u : MigUnit) (rest : List MigUnit) (db : DB σ) (e : String)
    (h1 : versionOf u.dirName ∉ migs) (h2 : u.up ≠ "")
    (hx : applyUnit exec u db = .error e) :
    migrateLoop exec migs (u :: rest) db = ⟨db, [u.dirName], some e⟩ := by
  rw [migrateLoop, if_neg h1, if_neg h2, hx]

/-- Loop equation: a successful migration transaction is followed by the
rest of the loop on the updated state. -/
theorem migrateLoop_cons_ok (exec : ScriptSem σ) (migs : List String)
    (u : MigUnit) (rest : List MigUnit) (db db2 : DB σ)
    (h1 : versionOf u.dirName ∉ migs) (h2 : u.up ≠ "")
    (hx : applyUnit exec u db = .ok db2) :
    migrateLoop exec migs (u :: rest) db =
      ⟨(migrateLoop exec migs rest db2).db,
        u.dirName :: (migrateLoop exec migs rest db2).executed,
        (migrateLoop exec migs rest db2).error⟩ := by
  rw [migrateLoop, if_neg h1, if_neg h2, hx]

/-- The migrate loop preserves the bookkeeping table and never deletes a
recorded version. -/
theorem migrateLoop_state (exec : ScriptSem σ) (migs : List String)
    (units : List MigUnit) :
    ∀ db : DB σ,
      (migrateLoop exec migs units db).db.tableExists = db.tableExists ∧
      appliedVersions db ⊆ appliedVersions (migrateLoop exec migs units db).db := by
  induction units with
  | nil => exact fun db => ⟨rfl, fun _ h => h⟩
  | cons u rest ih =>
    intro db
    by_cases h1 : versionOf u.dirName ∈ migs
    · rw [migrateLoop_cons_mem _ _ _ _ _ h1]; exact ih db
    · by_cases h2 : u.up = ""
      · rw [migrateLoop_cons_empty _ _ _ _ _ h1 h2]; exact ih db
      · cases hx : applyUnit exec u db with
        | error e =>
          rw [migrateLoop_cons_fail _ _ _ _ _ _ h1 h2 hx]
          exact ⟨rfl, fun _ h => h⟩
        | ok db2 =>
          rw [migrateLoop_cons_ok _ _ _ _ _ _ h1 h2 hx]
          obtain ⟨hr, ht, _⟩ := applyUnit_ok exec u db db2 hx
          obtain ⟨iht, ihs⟩ := ih db2
          refine ⟨by rw [iht, ht], fun v hv => ?_⟩
          apply ihs
          unfold appliedVersions at hv ⊢
          rw [hr]
          simp only [List.map_append, List.mem_append]
          exact Or.inl hv

/-- Every version recorded during the migrate loop belongs to a unit of the
remaining catalog whose up script is non-empty. -/
theorem migrateLoop_new_applied (exec : ScriptSem σ) (migs : List String)
    (units : List MigUnit) :
    ∀ (db : DB σ) (v : String),
      v ∈ appliedVersions (migrateLoop exec migs units db).db →
      v ∈ appliedVersions db ∨
        ∃ u ∈ units, versionOf u.dirName = v ∧ u.up ≠ "" := by
  induction units with
  | nil => exact fun db v hv => Or.inl hv
  | cons u rest ih =>
    intro db v hv
    by_cases h1 : versionOf u.dirName ∈ migs
    · rw [migrateLoop_cons_mem _ _ _ _ _ h1] at hv
      rcases ih db v hv with h | ⟨u2, hu2, he⟩
      · exact Or.inl h
      · exact Or.inr ⟨u2, List.mem_cons_of_mem u hu2, he⟩
    · by_cases h2 : u.up = ""
      · rw [migrateLoop_cons_empty _ _ _ _ _ h1 h2] at hv
        rcases ih db v hv with h | ⟨u2, hu2, he⟩
        · exact Or.inl h
        · exact Or.inr ⟨u2, List.mem_cons_of_mem u hu2, he⟩
      · cases hx : applyUnit exec u db with
        | error e =>
          rw [migrateLoop_cons_fail _ _ _ _ _ _ h1 h2 hx] at hv
          exact Or.inl hv
        | ok db2 =>
          rw [migrateLoop_cons_ok _ _ _ _ _ _ h1 h2 hx] at hv
          obtain ⟨hr, _, _⟩ := applyUnit_ok exec u db db2 hx
          rcases ih db2 v hv with h | ⟨u2, hu2, he⟩
          · unfold appliedVersions at h
            rw [hr] at h
            simp only [List.map_append, List.mem_append, List.map_cons,
              List.map_nil, List.mem_singleton] at h
            rcases h with h | h
            · exact Or.inl h
            · exact Or.inr ⟨u, List.mem_cons_self u rest, h.symm, h2⟩
          · exact Or.inr ⟨u2, List.mem_cons_of_mem u hu2, he⟩

/-- Every transaction the migrate loop sends belongs to a unit of the
remaining catalog whose up script is non-empty. -/
theorem migrateLoop_executed_mem (exec : ScriptSem σ) (migs : List String)
    (units : List MigUnit) :
    ∀ (db : DB σ) (d : String),
      d ∈ (migrateLoop exec migs units db).executed →
      ∃ u ∈ units, u.dirName = d ∧ u.up ≠ "" := by
  induction units with
  | nil => intro db d hd; cases hd
  | cons u rest ih =>
    intro db d hd
    by_cases h1 : versionOf u.dirName ∈ migs
    · rw [migrateLoop_cons_mem _ _ _ _ _ h1] at hd
      obtain ⟨u2, hu2, he⟩ := ih db d hd
      exact ⟨u2, List.mem_cons_of_mem u hu2, he⟩
    · by_cases h2 : u.up = ""
      · rw [migrateLoop_cons_empty _ _ _ _ _ h1 h2] at hd
        obtain ⟨u2, hu2, he⟩ := ih db d hd
        exact ⟨u2, List.mem_cons_of_mem u hu2, he⟩
      · cases hx : applyUnit exec u db with
        | error e =>
          rw [migrateLoop_cons_fail _ _ _ _ _ _ h1 h2 hx] at hd
          simp only [List.mem_singleton] at hd
          exact ⟨u, List.mem_cons_self u rest, hd.symm, h2⟩
        | ok db2 =>
          rw [migrateLoop_cons_ok _ _ _ _ _ _ h1 h2 hx] at hd
          rcases List.mem_cons.mp hd with hd | hd
          · exact ⟨u, List.mem_cons_self u rest, hd.symm, h2⟩
          · obtain ⟨u2, hu2, he⟩ := ih db2 d hd
            exact ⟨u2, List.mem_cons_of_mem u hu2, he⟩

/-- The transactions of a migrate run are sent in listing order: the
executed basenames form a sublist of the catalog's basenames. -/
theorem migrateLoop_executed_sublist (exec : ScriptSem σ) (migs : List String)
    (units : List MigUnit) :
    ∀ db : DB σ,
      List.Sublist (migrateLoop exec migs units db).executed
        (units.map (·.dirName)) := by
  induction units with
  | nil => intro db; exact List.Sublist.refl []
  | cons u rest ih =>
    intro db
    by_cases h1 : versionOf u.dirName ∈ migs
    · rw [migrateLoop_cons_mem _ _ _ _ _ h1]
      exact (ih db).trans (List.sublist_cons_self _ _)
    · by_cases h2 : u.up = ""
      · rw [migrateLoop_cons_empty _ _ _ _ _ h1 h2]
        exact (ih db).trans (List.sublist_cons_self _ _)
      · cases hx : applyUnit exec u db with
        | error e =>
          rw [migrateLoop_cons_fail _ _ _ _ _ _ h1 h2 hx]
          exact List.cons_sublist_cons.mpr (List.nil_sublist _)
        | ok db2 =>
          rw [migrateLoop_cons_ok _ _ _ _ _ _ h1 h2 hx]
          exact List.cons_sublist_cons.mpr (ih db2)

/-- After a migrate loop that ran to completion, every unit of the catalog
either has an empty up script, was already in the fetched snapshot, or is
now recorded as applied. -/
theorem migrateLoop_complete (exec : ScriptSem σ) (migs : List String)
    (units : List MigUnit) :
    ∀ db : DB σ, (migrateLoop exec migs units db).error = none →
      ∀ u ∈ units, u.up = "" ∨ versionOf u.dirName ∈ migs ∨
        versionOf u.dirName ∈ appliedVersions (migrateLoop exec migs units db).db := by
  induction units with
  | nil => intro db _ u hu; cases hu
  | cons u rest ih =>
    intro db herr u2 hu2
    by_cases h1 : versionOf u.dirName ∈ migs
    · rw [migrateLoop_cons_mem _ _ _ _ _ h1] at herr ⊢
      rcases List.mem_cons.mp hu2 with rfl | hmem
      · exact Or.inr (Or.inl h1)
      · exact ih db herr u2 hmem
    · by_cases h2 : u.up = ""
      · rw [migrateLoop_cons_empty _ _ _ _ _ h1 h2] at herr ⊢
        rcases List.mem_cons.mp hu2 with rfl | hmem
        · exact Or.inl h2
        · exact ih db herr u2 hmem
      · cases hx : applyUnit exec u db with
        | error e =>
          rw [migrateLoop_cons_fail _ _ _ _ _ _ h1 h2 hx] at herr
          cases herr
        | ok db2 =>
          rw [migrateLoop_cons_ok _ _ _ _ _ _ h1 h2 hx] at herr ⊢
          obtain ⟨hr, _, _⟩ := applyUnit_ok exec u db db2 hx
          rcases List.mem_cons.mp hu2 with rfl | hmem
          · refine Or.inr (Or.inr ?_)
            apply (migrateLoop_state exec migs rest db2).2
            unfold appliedVersions
            rw [hr]
            simp
          · exact ih db2 herr u2 hmem

/-- A migrate loop over a catalog in which every unit is already recorded
or has an empty up script does nothing. -/
theorem migrateLoop_skip_all (exec : ScriptSem σ) (migs : List String)
    (units : List MigUnit) :
    ∀ db : DB σ, (∀ u ∈ units, u.up = "" ∨ versionOf u.dirName ∈ migs) →
      migrateLoop exec migs units db = ⟨db, [], none⟩ := by
  induction units with
  | nil => intro db _; rfl
  | cons u rest ih =>
    intro db hall
    have hrest : ∀ u2 ∈ rest, u2.up = "" ∨ versionOf u2.dirName ∈ migs :=
      fun u2 hu2 => hall u2 (List.mem_cons_of_mem u hu2)
    rcases hall u (List.mem_cons_self u rest) with h | h
    · by_cases h1 : versionOf u.dirName ∈ migs
      · rw [migrateLoop_cons_mem _ _ _ _ _ h1]; exact ih db hrest
      · rw [migrateLoop_cons_empty _ _ _ _ _ h1 h]; exact ih db hrest
    · rw [migrateLoop_cons_mem _ _ _ _ _ h]; exact ih db hrest

/-! ## Claims -/

/-- C1: for a pending unit whose up script fails during execution, the
migrate run aborts with the database state unchanged — the bookkeeping
INSERT of the same transaction is rolled back with it, so no AppliedRecord
row for the unit's version exists afterwards and no schema change from the
script is visible. -/
theorem C1_up_failure_atomic (exec : ScriptSem σ)
    (migs : List String) (rest : List MigUnit) (u : MigUnit) (db : DB σ)
    (e : String)
    (htable : db.tableExists = true)
    (hpending : versionOf u.dirName ∉ appliedVersions db)
    (hsnap : versionOf u.dirName ∉ migs)
    (hup : u.up ≠ "")
    (hfail : exec u.up db.schema = .error e) :
    migrateLoop exec migs (u :: rest) db = ⟨db, [u.dirName], some e⟩ ∧
    versionOf u.dirName ∉
      appliedVersions (migrateLoop exec migs (u :: rest) db).db ∧
    (migrateLoop exec migs (u :: rest) db).db.schema = db.schema := by
  have hpending2 : versionOf u.dirName ∉ db.rows.map (·.version) := hpending
  have hx : applyUnit exec u db = .error e := by
    rw [applyUnit, transaction_def]
    simp [runStmts, execStmt, htable, hpending2, hfail]
  rw [migrateLoop_cons_fail _ _ _ _ _ _ hsnap hup hx]
  exact ⟨rfl, hpending, rfl⟩

/-- Witness for C1 at a concrete input: one pending unit whose up script
fails; the run aborts, the state is untouched and no row is recorded. -/
theorem C1_up_failure_atomic_witness :
    migrateLoop demoSem [] [⟨"1-A", "BAD", ""⟩] (⟨true, [], []⟩ : DB (List String)) =
      ⟨⟨true, [], []⟩, ["1-A"], some "script error"⟩ :=
  (C1_up_failure_atomic demoSem [] [] ⟨"1-A", "BAD", ""⟩ ⟨true, [], []⟩
    "script error" rfl (by decide) (by decide) (by decide) rfl).1

/-- C2 counterexample: the catalog is consumed in directory-listing order
with no key sort.  The listing `["10-B", "2-A"]` is in exactly the
byte-wise name order `readdirSync` yields, yet `migrate` executes key 10
before key 2 — not ascending key order, refuting the claim that the list
is sorted ascending by key before the loop consumes it. -/
theorem C2_order_cex :
    (migrate demoSem
        (catalogUnits [⟨"10-B", true⟩, ⟨"2-A", true⟩, ⟨"notes", false⟩]
          (fun d f => if f = "up.sql" then "up " ++ d else ""))
        (⟨false, [], []⟩ : DB (List String))).executed = ["10-B", "2-A"] ∧
    keyNat "2-A" < keyNat "10-B" ∧
    ¬ ((migrate demoSem
        (catalogUnits [⟨"10-B", true⟩, ⟨"2-A", true⟩, ⟨"notes", false⟩]
          (fun d f => if f = "up.sql" then "up " ++ d else ""))
        (⟨false, [], []⟩ : DB (List String))).executed.map keyNat).Pairwise
      (· ≤ ·) := by
  decide

/-- C2 (amended): `migrate` processes pending units in the order of the
directory listing — its executed transactions form a sublist of the
listing — and therefore applies them in ascending key order exactly when
the listing itself is ascending by key; no sort is applied. -/
theorem C2_order_amended (exec : ScriptSem σ) (units : List MigUnit)
    (db : DB σ) :
    List.Sublist (migrate exec units db).executed (units.map (·.dirName)) ∧
    ((units.map fun u => keyNat u.dirName).Pairwise (· ≤ ·) →
      ((migrate exec units db).executed.map keyNat).Pairwise (· ≤ ·)) := by
  rw [migrate_def]
  refine ⟨migrateLoop_executed_sublist _ _ _ _, fun hsorted => ?_⟩
  have hsub := migrateLoop_executed_sublist exec (appliedVersions db) units
    { db with tableExists := true }
  have hsub2 := List.Sublist.map keyNat hsub
  rw [List.map_map] at hsub2
  exact List.Pairwise.sublist hsub2 (by simpa [Function.comp] using hsorted)

/-- Witness for C2 (amended) at a concrete input: a listing that is
ascending by key is applied in ascending key order. -/
theorem C2_order_amended_witness :
    ((migrate demoSem [⟨"1-A", "u1", ""⟩, ⟨"2-B", "u2", ""⟩]
        (⟨false, [], []⟩ : DB (List String))).executed.map keyNat).Pairwise
      (· ≤ ·) :=
  (C2_order_amended demoSem [⟨"1-A", "u1", ""⟩, ⟨"2-B", "u2", ""⟩]
    ⟨false, [], []⟩).2 (by decide)

/-- C3 counterexample, two scenarios.  First: with a single catalog unit
whose up script fails, both the first and the second `migrate` run send
that unit's up-script transaction — the second run does not execute zero
additional up scripts.  Second: with duplicate catalog keys
(`1-A`, `1-B`, `2-C`), the first run aborts on `1-B`'s primary-key
violation before reaching `2-C`, and the second run then applies `2-C` —
writing an additional AppliedRecord.  Both refute the claim as a statement
about every catalog and database state. -/
theorem C3_idempotence_cex :
    ((migrate demoSem [⟨"1-A", "BAD", ""⟩]
        (⟨false, [], []⟩ : DB (List String))).executed = ["1-A"] ∧
      (migrate demoSem [⟨"1-A", "BAD", ""⟩]
        (migrate demoSem [⟨"1-A", "BAD", ""⟩]
          (⟨false, [], []⟩ : DB (List String))).db).executed = ["1-A"]) ∧
    (migrate demoSem [⟨"1-A", "a", ""⟩, ⟨"1-B", "b", ""⟩, ⟨"2-C", "c", ""⟩]
        (migrate demoSem [⟨"1-A", "a", ""⟩, ⟨"1-B", "b", ""⟩, ⟨"2-C", "c", ""⟩]
          (⟨false, [], []⟩ : DB (List String))).db).db.rows =
      [⟨"1", "A"⟩, ⟨"2", "C"⟩] ∧
    (migrate demoSem [⟨"1-A", "a", ""⟩, ⟨"1-B", "b", ""⟩, ⟨"2-C", "c", ""⟩]
        (⟨false, [], []⟩ : DB (List String))).db.rows = [⟨"1", "A"⟩] := by
  decide

/-- C3 (amended): when the first `migrate` run completes without error, a
second run over the same catalog executes no up script, writes no
AppliedRecord and leaves the database untouched. -/
theorem C3_idempotent_amended (exec : ScriptSem σ) (units : List MigUnit)
    (db : DB σ) (h : (migrate exec units db).error = none) :
    migrate exec units (migrate exec units db).db =
      ⟨(migrate exec units db).db, [], none⟩ := by
  rw [migrate_def] at h ⊢
  rw [migrate_def]
  have hstate := migrateLoop_state exec (appliedVersions db) units
    { db with tableExists := true }
  set r := migrateLoop exec (appliedVersions db) units
    { db with tableExists := true } with hrdef
  have htab : r.db.tableExists = true := hstate.1
  have hdb1 : ({ r.db with tableExists := true } : DB σ) = r.db := by
    rcases hdbe : r.db with ⟨t, rws, sch⟩
    rw [hdbe] at htab
    simp at htab
    simp [hdbe, htab]
  rw [hdb1]
  apply migrateLoop_skip_all
  intro u hu
  rcases migrateLoop_complete exec (appliedVersions db) units
      { db with tableExists := true } h u hu with he | hm | ha
  · exact Or.inl he
  · exact Or.inr (hstate.2 hm)
  · exact Or.inr ha

/-- Witness for C3 (amended) at a concrete input: after a successful first
run, the second run does nothing. -/
theorem C3_idempotent_amended_witness :
    migrate demoSem [⟨"1-A", "u1", ""⟩]
        (migrate demoSem [⟨"1-A", "u1", ""⟩]
          (⟨false, [], []⟩ : DB (List String))).db =
      ⟨(migrate demoSem [⟨"1-A", "u1", ""⟩]
          (⟨false, [], []⟩ : DB (List String))).db, [], none⟩ :=
  C3_idempotent_amended demoSem [⟨"1-A", "u1", ""⟩] ⟨false, [], []⟩ (by decide)

/-- C6: a pending unit with an empty up script is skipped entirely on every
`migrate` run: no transaction is ever opened for it and its version is
never recorded, however many times `migrate` is invoked (assuming the
catalog's keys are distinct, as the data model requires). -/
theorem C6_empty_up_skip (exec : ScriptSem σ) (units : List MigUnit)
    (u : MigUnit)
    (huniq : (units.map fun u2 => versionOf u2.dirName).Nodup)
    (hu : u ∈ units) (hup : u.up = "") (db : DB σ)
    (hnot : versionOf u.dirName ∉ appliedVersions db) :
    ∀ n : Nat,
      versionOf u.dirName ∉ appliedVersions (migrateRuns exec units n db).1 ∧
      u.dirName ∉ (migrateRuns exec units n db).2 := by
  have hinj := List.inj_on_of_nodup_map huniq
  intro n
  induction n generalizing db with
  | zero => exact ⟨hnot, List.not_mem_nil _⟩
  | succ m ihm =>
    have hv1 : versionOf u.dirName ∉ appliedVersions (migrate exec units db).db := by
      intro hvin
      rw [migrate_def] at hvin
      rcases migrateLoop_new_applied exec (appliedVersions db) units
          { db with tableExists := true } (versionOf u.dirName) hvin with
        h | ⟨u2, hu2, hv, hne⟩
      · exact hnot h
      · have heq : u2 = u := hinj hu2 hu hv
        rw [heq] at hne
        exact hne hup
    have hd1 : u.dirName ∉ (migrate exec units db).executed := by
      intro hdin
      rw [migrate_def] at hdin
      obtain ⟨u2, hu2, hd, hne⟩ := migrateLoop_executed_mem exec
        (appliedVersions db) units { db with tableExists := true } u.dirName hdin
      have hv : versionOf u2.dirName = versionOf u.dirName := by rw [hd]
      have heq : u2 = u := hinj hu2 hu hv
      rw [heq] at hne
      exact hne hup
    obtain ⟨ih1, ih2⟩ := ihm (migrate exec units db).db hv1
    refine ⟨by simpa [migrateRuns] using ih1, ?_⟩
    simp only [migrateRuns, List.mem_append]
    rintro (h | h)
    · exact hd1 h
    · exact ih2 h

/-- Witness for C6 at a concrete input: after two `migrate` runs over a
catalog containing a unit with an empty up script, that unit is still not
recorded and no transaction was ever opened for it. -/
theorem C6_empty_up_skip_witness :
    "1" ∉ appliedVersions
        (migrateRuns demoSem [⟨"1-A", "", ""⟩, ⟨"2-B", "u2", ""⟩] 2
          (⟨false, [], []⟩ : DB (List String))).1 ∧
    "1-A" ∉ (migrateRuns demoSem [⟨"1-A", "", ""⟩, ⟨"2-B", "u2", ""⟩] 2
        (⟨false, [], []⟩ : DB (List String))).2 :=
  C6_empty_up_skip demoSem [⟨"1-A", "", ""⟩, ⟨"2-B", "u2", ""⟩]
    ⟨"1-A", "", ""⟩ (by decide) (by decide) rfl ⟨false, [], []⟩ (by decide) 2

/-- `rollback` unfolded when the bookkeeping table exists: the fetch
succeeds and the loop starts on the reversed listing with a zero
counter. -/
theorem rollback_def_ok (exec : ScriptSem σ) (all : Bool)
    (units : List MigUnit) (db : DB σ) (ht : db.tableExists = true) :
    rollback exec all units db =
      rollbackLoop exec all (appliedVersions db) units.reverse 0 db := by
  unfold rollback fetchMigrations
  rw [ht]
  rfl

/-- A successful `revertUnit` transaction deletes exactly the unit's
bookkeeping row and sets the schema to the result of the down script. -/
theorem revertUnit_ok_eq (exec : ScriptSem σ) (u : MigUnit) (db : DB σ)
    (s : σ) (ht : db.tableExists = true) (hs : exec u.down db.schema = .ok s) :
    revertUnit exec u db =
      .ok { db with
              rows := db.rows.filter fun r => r.version ≠ versionOf u.dirName,
              schema := s } := by
  rw [revertUnit, transaction_def]
  simp [runStmts, execStmt, ht, hs]

/-- Loop equation: without the `all` flag, a positive counter breaks the
loop before the next unit is considered. -/
theorem rollbackLoop_cons_break (exec : ScriptSem σ) (all : Bool)
    (migs : List String) (u : MigUnit) (rest : List MigUnit)
    (removedCount : Nat) (db : DB σ)
    (h : all = false ∧ 0 < removedCount) :
    rollbackLoop exec all migs (u :: rest) removedCount db = ⟨db, [], none⟩ := by
  rw [rollbackLoop, if_pos h]

/-- Loop equation: a unit not recorded as applied is skipped. -/
theorem rollbackLoop_cons_notmem (exec : ScriptSem σ) (all : Bool)
    (migs : List String) (u : MigUnit) (rest : List MigUnit)
    (removedCount : Nat) (db : DB σ)
    (hnb : ¬(all = false ∧ 0 < removedCount))
    (h1 : versionOf u.dirName ∉ migs) :
    rollbackLoop exec all migs (u :: rest) removedCount db =
      rollbackLoop exec all migs rest removedCount db := by
  rw [rollbackLoop, if_neg hnb, if_pos h1]

/-- Loop equation: an applied unit with an empty down script is skipped
without touching the database and without incrementing the counter. -/
theorem rollbackLoop_cons_empty (exec : ScriptSem σ) (all : Bool)
    (migs : List String) (u : MigUnit) (rest : List MigUnit)
    (removedCount : Nat) (db : DB σ)
    (hnb : ¬(all = false ∧ 0 < removedCount))
    (h1 : versionOf u.dirName ∈ migs) (h2 : u.down = "") :
    rollbackLoop exec all migs (u :: rest) removedCount db =
      rollbackLoop exec all migs rest removedCount db := by
  rw [rollbackLoop, if_neg hnb, if_neg (not_not_intro h1), if_pos h2]

/-- Loop equation: a failing rollback transaction aborts the run with the
state unchanged. -/
theorem rollbackLoop_cons_fail (exec : ScriptSem σ) (all : Bool)
    (migs : List String) (u : MigUnit) (rest : List MigUnit)
    (removedCount : Nat) (db : DB σ) (e : String)
    (hnb : ¬(all = false ∧ 0 < removedCount))
    (h1 : versionOf u.dirName ∈ migs) (h2 : u.down ≠ "")
    (hx : revertUnit exec u db = .error e) :
    rollbackLoop exec all migs (u :: rest) removedCount db =
      ⟨db, [u.dirName], some e⟩ := by
  rw [rollbackLoop, if_neg hnb, if_neg (not_not_intro h1), if_neg h2, hx]

/-- Loop equation: a successful rollback transaction is followed by the
rest of the loop with the counter incremented. -/
theorem rollbackLoop_cons_ok (exec : ScriptSem σ) (all : Bool)
    (migs : List String) (u : MigUnit) (rest : List MigUnit)
    (removedCount : Nat) (db db2 : DB σ)
    (hnb : ¬(all = false ∧ 0 < removedCount))
    (h1 : versionOf u.dirName ∈ migs) (h2 : u.down ≠ "")
    (hx : revertUnit exec u db = .ok db2) :
    rollbackLoop exec all migs (u :: rest) removedCount db =
      ⟨(rollbackLoop exec all migs rest (removedCount + 1) db2).db,
        u.dirName :: (rollbackLoop exec all migs rest (removedCount + 1) db2).executed,
        (rollbackLoop exec all migs rest (removedCount + 1) db2).error⟩ := by
  rw [rollbackLoop, if_neg hnb, if_neg (not_not_intro h1), if_neg h2, hx]

/-- A version distinct from the deleted one survives the bookkeeping
DELETE. -/
theorem version_mem_filter {rows : List Row} {v w : String}
    (hv : v ∈ rows.map (·.version)) (hne : v ≠ w) :
    v ∈ (rows.filter fun r => r.version ≠ w).map (·.version) := by
  obtain ⟨r, hr, hrv⟩ := List.mem_map.mp hv
  refine List.mem_map.mpr ⟨r, List.mem_filter.mpr ⟨hr, ?_⟩, hrv⟩
  simp [hrv, hne]

/-- The deleted version is gone after the bookkeeping DELETE. -/
theorem version_not_mem_filter {rows : List Row} {w : String} :
    w ∉ (rows.filter fun r => r.version ≠ w).map (·.version) := by
  intro h
  obtain ⟨r, hr, hrv⟩ := List.mem_map.mp h
  have h2 := (List.mem_filter.mp hr).2
  simp [hrv] at h2

/-- C4 counterexample: the walk order is the reversed directory listing,
not descending key order.  With the listing `["10-B", "2-A"]` — exactly
the byte-wise name order `readdirSync` yields — and both units applied,
`rollback` without `--all` reverts key 2, not the greatest key 10,
refuting the claim that the single reverted unit is the one with the
greatest key. -/
theorem C4_default_scope_cex :
    rollback demoSem false [⟨"10-B", "", "d10"⟩, ⟨"2-A", "", "d2"⟩]
        (⟨true, [⟨"10", "B"⟩, ⟨"2", "A"⟩], []⟩ : DB (List String)) =
      ⟨⟨true, [⟨"10", "B"⟩], ["d2"]⟩, ["2-A"], none⟩ ∧
    keyNat "2-A" < keyNat "10-B" := by
  decide

/-- C4 (amended): without the `all` flag, `rollback` reverts exactly the
first applied unit with a non-empty down script in *reversed listing
order* — the unit with the greatest key whenever the listing is ascending
by key, as with the three-unit listing `[u1, u2, u3]` here — deletes its
record, and stops before considering any further unit; a subsequent
`rollback` then reverts only the unit before it. -/
theorem C4_default_scope_amended (exec : ScriptSem σ) (u1 u2 u3 : MigUnit)
    (db : DB σ) (s3 s2 : σ)
    (ht : db.tableExists = true)
    (_h1 : versionOf u1.dirName ∈ appliedVersions db)
    (h2 : versionOf u2.dirName ∈ appliedVersions db)
    (h3 : versionOf u3.dirName ∈ appliedVersions db)
    (hd32 : versionOf u2.dirName ≠ versionOf u3.dirName)
    (hne3 : u3.down ≠ "") (hne2 : u2.down ≠ "")
    (hs3 : exec u3.down db.schema = .ok s3)
    (hs2 : exec u2.down s3 = .ok s2) :
    rollback exec false [u1, u2, u3] db =
      ⟨{ db with
          rows := db.rows.filter fun r => r.version ≠ versionOf u3.dirName,
          schema := s3 },
        [u3.dirName], none⟩ ∧
    (rollback exec false [u1, u2, u3]
        (rollback exec false [u1, u2, u3] db).db).executed = [u2.dirName] := by
  have hnb0 : ¬(false = false ∧ 0 < 0) := by simp
  have hrev : ([u1, u2, u3] : List MigUnit).reverse = [u3, u2, u1] := rfl
  have hfirst : rollback exec false [u1, u2, u3] db =
      ⟨{ db with
          rows := db.rows.filter fun r => r.version ≠ versionOf u3.dirName,
          schema := s3 },
        [u3.dirName], none⟩ := by
    rw [rollback_def_ok _ _ _ _ ht, hrev]
    rw [rollbackLoop_cons_ok _ _ _ _ _ _ _ _ hnb0 h3 hne3
      (revertUnit_ok_eq _ _ _ _ ht hs3)]
    rw [rollbackLoop_cons_break _ _ _ _ _ _ _ ⟨rfl, Nat.zero_lt_one⟩]
  refine ⟨hfirst, ?_⟩
  rw [hfirst]
  set db3 : DB σ :=
    { db with
        rows := db.rows.filter fun r => r.version ≠ versionOf u3.dirName,
        schema := s3 } with hdb3
  have ht3 : db3.tableExists = true := ht
  have h3not : versionOf u3.dirName ∉ appliedVersions db3 := version_not_mem_filter
  have h2mem : versionOf u2.dirName ∈ appliedVersions db3 := version_mem_filter h2 hd32
  have hs2b : exec u2.down db3.schema = .ok s2 := hs2
  show (rollback exec false [u1, u2, u3] db3).executed = [u2.dirName]
  rw [rollback_def_ok _ _ _ _ ht3, hrev]
  rw [rollbackLoop_cons_notmem _ _ _ _ _ _ _ hnb0 h3not]
  rw [rollbackLoop_cons_ok _ _ _ _ _ _ _ _ hnb0 h2mem hne2
    (revertUnit_ok_eq _ _ _ _ ht3 hs2b)]
  rw [rollbackLoop_cons_break _ _ _ _ _ _ _ ⟨rfl, Nat.zero_lt_one⟩]

/-- Witness for C4 (amended) at a concrete input: three applied units in an
ascending listing; the first rollback reverts only key 3, the second only
key 2. -/
theorem C4_default_scope_amended_witness :
    rollback demoSem false [⟨"1-A", "", "d1"⟩, ⟨"2-B", "", "d2"⟩, ⟨"3-C", "", "d3"⟩]
        (⟨true, [⟨"1", "A"⟩, ⟨"2", "B"⟩, ⟨"3", "C"⟩], []⟩ : DB (List String)) =
      ⟨⟨true, [⟨"1", "A"⟩, ⟨"2", "B"⟩], ["d3"]⟩, ["3-C"], none⟩ ∧
    (rollback demoSem false
        [⟨"1-A", "", "d1"⟩, ⟨"2-B", "", "d2"⟩, ⟨"3-C", "", "d3"⟩]
        (rollback demoSem false
          [⟨"1-A", "", "d1"⟩, ⟨"2-B", "", "d2"⟩, ⟨"3-C", "", "d3"⟩]
          (⟨true, [⟨"1", "A"⟩, ⟨"2", "B"⟩, ⟨"3", "C"⟩], []⟩ : DB (List String))).db).executed =
      ["2-B"] :=
  C4_default_scope_amended demoSem ⟨"1-A", "", "d1"⟩ ⟨"2-B", "", "d2"⟩
    ⟨"3-C", "", "d3"⟩ ⟨true, [⟨"1", "A"⟩, ⟨"2", "B"⟩, ⟨"3", "C"⟩], []⟩
    ["d3"] ["d3", "d2"] rfl (by decide) (by decide) (by decide) (by decide)
    (by decide) (by decide) rfl rfl

/-- C5 counterexample: `rollback --all` reverts in *reversed listing
order*, not descending key order.  With the byte-ordered listing
`["10-B", "2-A"]` and both units applied, it reverts key 2 first and key
10 second — ascending key order — refuting the claimed descending-key
order. -/
theorem C5_rollback_all_cex :
    rollback demoSem true [⟨"10-B", "", "d10"⟩, ⟨"2-A", "", "d2"⟩]
        (⟨true, [⟨"10", "B"⟩, ⟨"2", "A"⟩], []⟩ : DB (List String)) =
      ⟨⟨true, [], ["d2", "d10"]⟩, ["2-A", "10-B"], none⟩ ∧
    keyNat "2-A" < keyNat "10-B" ∧
    ¬ ((rollback demoSem true [⟨"10-B", "", "d10"⟩, ⟨"2-A", "", "d2"⟩]
        (⟨true, [⟨"10", "B"⟩, ⟨"2", "A"⟩], []⟩ : DB (List String))).executed.map
        keyNat).Pairwise (· ≥ ·) := by
  decide

/-- C5 (amended): `rollback --all` reverts every applied unit with a
non-empty down script in reversed listing order — descending key order
whenever the listing is ascending by key, as with `[u1, u2, u3]` here —
deleting each unit's AppliedRecord as it goes. -/
theorem C5_rollback_all_amended (exec : ScriptSem σ) (u1 u2 u3 : MigUnit)
    (db : DB σ) (s3 s2 s1 : σ)
    (ht : db.tableExists = true)
    (h1 : versionOf u1.dirName ∈ appliedVersions db)
    (h2 : versionOf u2.dirName ∈ appliedVersions db)
    (h3 : versionOf u3.dirName ∈ appliedVersions db)
    (hne3 : u3.down ≠ "") (hne2 : u2.down ≠ "") (hne1 : u1.down ≠ "")
    (hs3 : exec u3.down db.schema = .ok s3)
    (hs2 : exec u2.down s3 = .ok s2)
    (hs1 : exec u1.down s2 = .ok s1) :
    rollback exec true [u1, u2, u3] db =
      ⟨{ db with
          rows := ((db.rows.filter fun r => r.version ≠ versionOf u3.dirName).filter
              fun r => r.version ≠ versionOf u2.dirName).filter
            fun r => r.version ≠ versionOf u1.dirName,
          schema := s1 },
        [u3.dirName, u2.dirName, u1.dirName], none⟩ := by
  have hnb : ∀ k : Nat, ¬(true = false ∧ 0 < k) := by simp
  have hrev : ([u1, u2, u3] : List MigUnit).reverse = [u3, u2, u1] := rfl
  rw [rollback_def_ok _ _ _ _ ht, hrev]
  rw [rollbackLoop_cons_ok _ _ _ _ _ _ _ _ (hnb 0) h3 hne3
    (revertUnit_ok_eq _ _ _ _ ht hs3)]
  set db3 : DB σ :=
    { db with
        rows := db.rows.filter fun r => r.version ≠ versionOf u3.dirName,
        schema := s3 } with hdb3
  have ht3 : db3.tableExists = true := ht
  have hs2b : exec u2.down db3.schema = .ok s2 := hs2
  rw [rollbackLoop_cons_ok _ _ _ _ _ _ _ _ (hnb 1) h2 hne2
    (revertUnit_ok_eq _ _ _ _ ht3 hs2b)]
  set db4 : DB σ :=
    { db3 with
        rows := db3.rows.filter fun r => r.version ≠ versionOf u2.dirName,
        schema := s2 } with hdb4
  have ht4 : db4.tableExists = true := ht
  have hs1b : exec u1.down db4.schema = .ok s1 := hs1
  rw [rollbackLoop_cons_ok _ _ _ _ _ _ _ _ (hnb 2) h1 hne1
    (revertUnit_ok_eq _ _ _ _ ht4 hs1b)]
  rfl

/-- Witness for C5 (amended) at a concrete input: three applied units in an
ascending listing are reverted 3, then 2, then 1, leaving no records. -/
theorem C5_rollback_all_amended_witness :
    rollback demoSem true [⟨"1-A", "", "d1"⟩, ⟨"2-B", "", "d2"⟩, ⟨"3-C", "", "d3"⟩]
        (⟨true, [⟨"1", "A"⟩, ⟨"2", "B"⟩, ⟨"3", "C"⟩], []⟩ : DB (List String)) =
      ⟨⟨true, [], ["d3", "d2", "d1"]⟩, ["3-C", "2-B", "1-A"], none⟩ :=
  C5_rollback_all_amended demoSem ⟨"1-A", "", "d1"⟩ ⟨"2-B", "", "d2"⟩
    ⟨"3-C", "", "d3"⟩ ⟨true, [⟨"1", "A"⟩, ⟨"2", "B"⟩, ⟨"3", "C"⟩], []⟩
    ["d3"] ["d3", "d2"] ["d3", "d2", "d1"] rfl (by decide) (by decide)
    (by decide) (by decide) (by decide) (by decide) rfl rfl rfl

/-- C7: during `rollback` without `--all`, an applied unit with an empty
down script is skipped — its AppliedRecord is kept and `removedCount` is
not incremented — so the scan continues past it (and past unapplied
units) to the next older applied unit, which is then reverted when its
down script is non-empty. -/
theorem C7_empty_down_skip (exec : ScriptSem σ) (u1 um u2 : MigUnit)
    (db : DB σ) (s1 : σ)
    (ht : db.tableExists = true)
    (h1 : versionOf u1.dirName ∈ appliedVersions db)
    (h2 : versionOf u2.dirName ∈ appliedVersions db)
    (hm : versionOf um.dirName ∉ appliedVersions db)
    (he2 : u2.down = "")
    (he1 : u1.down ≠ "")
    (hd : versionOf u2.dirName ≠ versionOf u1.dirName)
    (hs : exec u1.down db.schema = .ok s1) :
    rollback exec false [u1, um, u2] db =
      ⟨{ db with
          rows := db.rows.filter fun r => r.version ≠ versionOf u1.dirName,
          schema := s1 },
        [u1.dirName], none⟩ ∧
    versionOf u2.dirName ∈
      appliedVersions (rollback exec false [u1, um, u2] db).db ∧
    versionOf u1.dirName ∉
      appliedVersions (rollback exec false [u1, um, u2] db).db := by
  have hnb0 : ¬(false = false ∧ 0 < 0) := by simp
  have hrev : ([u1, um, u2] : List MigUnit).reverse = [u2, um, u1] := rfl
  have hfirst : rollback exec false [u1, um, u2] db =
      ⟨{ db with
          rows := db.rows.filter fun r => r.version ≠ versionOf u1.dirName,
          schema := s1 },
        [u1.dirName], none⟩ := by
    rw [rollback_def_ok _ _ _ _ ht, hrev]
    rw [rollbackLoop_cons_empty _ _ _ _ _ _ _ hnb0 h2 he2]
    rw [rollbackLoop_cons_notmem _ _ _ _ _ _ _ hnb0 hm]
    rw [rollbackLoop_cons_ok _ _ _ _ _ _ _ _ hnb0 h1 he1
      (revertUnit_ok_eq _ _ _ _ ht hs)]
    rfl
  refine ⟨hfirst, ?_, ?_⟩
  · rw [hfirst]
    exact version_mem_filter h2 hd
  · rw [hfirst]
    exact version_not_mem_filter

/-- Witness for C7 at a concrete input: key 3 is applied with an empty down
script and key 1 is applied with a non-empty one; `rollback` keeps key 3's
record, skips the unapplied key 2, and reverts key 1. -/
theorem C7_empty_down_skip_witness :
    rollback demoSem false [⟨"1-A", "", "d1"⟩, ⟨"2-B", "", "dm"⟩, ⟨"3-C", "", ""⟩]
        (⟨true, [⟨"1", "A"⟩, ⟨"3", "C"⟩], []⟩ : DB (List String)) =
      ⟨⟨true, [⟨"3", "C"⟩], ["d1"]⟩, ["1-A"], none⟩ ∧
    "3" ∈ appliedVersions
        (rollback demoSem false
          [⟨"1-A", "", "d1"⟩, ⟨"2-B", "", "dm"⟩, ⟨"3-C", "", ""⟩]
          (⟨true, [⟨"1", "A"⟩, ⟨"3", "C"⟩], []⟩ : DB (List String))).db ∧
    "1" ∉ appliedVersions
        (rollback demoSem false
          [⟨"1-A", "", "d1"⟩, ⟨"2-B", "", "dm"⟩, ⟨"3-C", "", ""⟩]
          (⟨true, [⟨"1", "A"⟩, ⟨"3", "C"⟩], []⟩ : DB (List String))).db :=
  C7_empty_down_skip demoSem ⟨"1-A", "", "d1"⟩ ⟨"2-B", "", "dm"⟩ ⟨"3-C", "", ""⟩
    ⟨true, [⟨"1", "A"⟩, ⟨"3", "C"⟩], []⟩ ["d1"] rfl (by decide) (by decide)
    (by decide) rfl (by decide) (by decide) rfl

/-- C10: `rollback` never creates the bookkeeping table first, so against a
database on which `migrate` has never run it fails with the
relation-missing error from reading `"Migration"` and reverts nothing —
whereas `migrate` on the same database first ensures the table and
succeeds (shown for an empty catalog). -/
theorem C10_rollback_missing_table (exec : ScriptSem σ) (all : Bool)
    (units : List MigUnit) (db : DB σ) (h : db.tableExists = false) :
    rollback exec all units db = ⟨db, [], some missingTableError⟩ ∧
    migrate exec [] db = ⟨{ db with tableExists := true }, [], none⟩ := by
  constructor
  · unfold rollback fetchMigrations
    rw [h]
    rfl
  · rw [migrate_def]
    rfl

/-- Witness for C10 at a concrete input: on a fresh database `rollback`
rejects with the relation-missing error while `migrate` succeeds. -/
theorem C10_rollback_missing_table_witness :
    rollback demoSem false [⟨"1-A", "u1", "d1"⟩] (⟨false, [], []⟩ : DB (List String)) =
      ⟨⟨false, [], []⟩, [], some missingTableError⟩ ∧
    migrate demoSem [] (⟨false, [], []⟩ : DB (List String)) =
      ⟨⟨true, [], []⟩, [], none⟩ :=
  C10_rollback_missing_table demoSem false [⟨"1-A", "u1", "d1"⟩]
    ⟨false, [], []⟩ rfl

/-- C8 counterexample: when the `ROLLBACK` round trip itself fails after a
script failure, the error the caller receives is the `ROLLBACK` failure,
not the original script error — the original error is *not* propagated
unchanged on the rollback-failure exit path. -/
theorem C8_release_cex :
    transactionFull demoSem ⟨none, none, some "rollback failed"⟩
        [.script "BAD"] (⟨true, [], []⟩ : DB (List String)) =
      ⟨⟨true, [], []⟩, some "rollback failed", true⟩ ∧
    "rollback failed" ≠ "script error" := by
  decide

/-- C8 (amended): the connection is released on every exit path of
`transaction` — success, script failure and rollback failure alike.  On a
failure whose `ROLLBACK` succeeds, the transaction is rolled back (state
unchanged) and the original error propagates unchanged; when the
`ROLLBACK` itself fails, the rollback error propagates instead, still with
the state unchanged and the connection released. -/
theorem C8_release_amended (exec : ScriptSem σ) (f : ConnFaults)
    (stmts : List Stmt) (db : DB σ) :
    (transactionFull exec f stmts db).released = true ∧
    (∀ e, f.beginErr = none → f.rollbackErr = none →
      runStmts exec stmts db = .error e →
      transactionFull exec f stmts db = ⟨db, some e, true⟩) ∧
    (∀ e e2, f.beginErr = none → f.rollbackErr = some e2 →
      runStmts exec stmts db = .error e →
      transactionFull exec f stmts db = ⟨db, some e2, true⟩) := by
  refine ⟨?_, ?_, ?_⟩
  · cases hb : f.beginErr with
    | some e => cases hr : f.rollbackErr <;> simp [transactionFull, hb, hr]
    | none =>
      cases hq : runStmts exec stmts db with
      | error e => cases hr : f.rollbackErr <;> simp [transactionFull, hb, hq, hr]
      | ok db2 =>
        cases hc : f.commitErr with
        | some e => cases hr : f.rollbackErr <;> simp [transactionFull, hb, hq, hc, hr]
        | none => simp [transactionFull, hb, hq, hc]
  · intro e hb hr hq
    simp [transactionFull, hb, hr, hq]
  · intro e e2 hb hr hq
    simp [transactionFull, hb, hr, hq]

/-- Witness for C8 (amended) at concrete inputs: a failing script with a
failing rollback releases the connection and surfaces the rollback error;
with a healthy rollback the original script error surfaces. -/
theorem C8_release_amended_witness :
    (transactionFull demoSem ⟨none, none, some "rb"⟩ [.script "BAD"]
        (⟨true, [], []⟩ : DB (List String))).released = true ∧
    transactionFull demoSem ⟨none, none, some "rb"⟩ [.script "BAD"]
        (⟨true, [], []⟩ : DB (List String)) =
      ⟨⟨true, [], []⟩, some "rb", true⟩ ∧
    transactionFull demoSem ⟨none, none, none⟩ [.script "BAD"]
        (⟨true, [], []⟩ : DB (List String)) =
      ⟨⟨true, [], []⟩, some "script error", true⟩ :=
  ⟨(C8_release_amended demoSem ⟨none, none, some "rb"⟩ [.script "BAD"]
      ⟨true, [], []⟩).1,
    (C8_release_amended demoSem ⟨none, none, some "rb"⟩ [.script "BAD"]
      ⟨true, [], []⟩).2.2 "script error" "rb" rfl rfl rfl,
    (C8_release_amended demoSem ⟨none, none, none⟩ [.script "BAD"]
      ⟨true, [], []⟩).2.1 "script error" rfl rfl rfl⟩

/-- The accumulator of `natDecimalAux` is simply appended to the digits. -/
theorem natDecimalAux_append :
    ∀ (fuel n : Nat) (acc : List Char),
      natDecimalAux fuel n acc = natDecimalAux fuel n [] ++ acc := by
  intro fuel
  induction fuel with
  | zero => intro n acc; rfl
  | succ f ih =>
    intro n acc
    by_cases h : n < 10
    · simp [natDecimalAux, h]
    · rw [natDecimalAux, if_neg h, ih (n / 10) (Char.ofNat (48 + n % 10) :: acc)]
      conv_rhs => rw [natDecimalAux, if_neg h,
        ih (n / 10) [Char.ofNat (48 + n % 10)]]
      rw [List.append_assoc]
      rfl

/-- Any sufficient fuel yields the same digits. -/
theorem natDecimalAux_fuel :
    ∀ (f1 : Nat), ∀ (f2 n : Nat), n < f1 → n < f2 →
      natDecimalAux f1 n [] = natDecimalAux f2 n [] := by
  intro f1
  induction f1 with
  | zero => intro f2 n h1 _; omega
  | succ f ih =>
    intro f2 n h1 h2
    cases f2 with
    | zero => omega
    | succ g =>
      by_cases h : n < 10
      · rw [natDecimalAux, if_pos h, natDecimalAux, if_pos h]
      · have hn0 : 0 < n := by omega
        have hdiv : n / 10 < n := Nat.div_lt_self hn0 (by norm_num)
        rw [natDecimalAux, if_neg h, natDecimalAux, if_neg h]
        rw [natDecimalAux_append f (n / 10) [Char.ofNat (48 + n % 10)],
          natDecimalAux_append g (n / 10) [Char.ofNat (48 + n % 10)]]
        rw [ih g (n / 10) (by omega) (by omega)]

/-- The decimal rendering of a number reads back as that number, and none
of its characters is a dash. -/
theorem natDecimal_spec (n : Nat) :
    digitsToNat (natDecimal n).data = n ∧ ∀ c ∈ (natDecimal n).data, c ≠ '-' := by
  induction n using Nat.strong_induction_on with
  | _ n ih =>
    by_cases h : n < 10
    · constructor
      · interval_cases n <;> decide
      · interval_cases n <;> decide
    · have h10 : 10 ≤ n := Nat.le_of_not_lt h
      have hn0 : 0 < n := by omega
      have hdiv : n / 10 < n := Nat.div_lt_self hn0 (by norm_num)
      have hstep : (natDecimal n).data =
          (natDecimal (n / 10)).data ++ [Char.ofNat (48 + n % 10)] := by
        show natDecimalAux (n + 1) n [] =
          natDecimalAux (n / 10 + 1) (n / 10) [] ++ [Char.ofNat (48 + n % 10)]
        rw [natDecimalAux, if_neg h]
        rw [natDecimalAux_append n (n / 10) [Char.ofNat (48 + n % 10)]]
        rw [natDecimalAux_fuel n (n / 10 + 1) (n / 10) (by omega) (by omega)]
      obtain ⟨ih1, ih2⟩ := ih (n / 10) hdiv
      constructor
      · rw [hstep]
        show digitsToNat ((natDecimal (n / 10)).data ++ [Char.ofNat (48 + n % 10)]) = n
        unfold digitsToNat
        rw [List.foldl_append]
        show digitsToNat (natDecimal (n / 10)).data * 10 +
          ((Char.ofNat (48 + n % 10)).toNat - 48) = n
        rw [ih1]
        have hm : n % 10 < 10 := Nat.mod_lt _ (by norm_num)
        have hc : (Char.ofNat (48 + n % 10)).toNat = 48 + n % 10 := by
          set m := n % 10 with hmdef
          interval_cases m <;> decide
        rw [hc]
        omega
      · rw [hstep]
        intro c hc
        rcases List.mem_append.mp hc with hcm | hcm
        · exact ih2 c hcm
        · rw [List.mem_singleton.mp hcm]
          have hm : n % 10 < 10 := Nat.mod_lt _ (by norm_num)
          set m := n % 10 with hmdef
          interval_cases m <;> decide

/-- Splitting a dash-free prefix followed by a dash yields that prefix as
the first chunk. -/
theorem splitChar_prefix :
    ∀ (l1 : List Char), ∀ (l2 acc : List Char), (∀ c ∈ l1, c ≠ '-') →
      splitChar (l1 ++ '-' :: l2) acc = (acc.reverse ++ l1) :: splitChar l2 [] := by
  intro l1
  induction l1 with
  | nil =>
    intro l2 acc _
    simp [splitChar]
  | cons c cs ihc =>
    intro l2 acc hno
    have hc : c ≠ '-' := hno c (List.mem_cons_self c cs)
    rw [List.cons_append, splitChar, if_neg hc,
      ihc l2 (c :: acc) fun d hd => hno d (List.mem_cons_of_mem c hd)]
    congr 1
    simp

/-- The `version` prefix of a directory created as
`"{natDecimal now}-{name}"` is exactly the decimal rendering of `now`. -/
theorem versionOf_created (now : Nat) (p : String) :
    versionOf (natDecimal now ++ "-" ++ p) = natDecimal now := by
  unfold versionOf splitDash
  have hdata : (natDecimal now ++ "-" ++ p).data =
      (natDecimal now).data ++ '-' :: p.data := by
    rcases p with ⟨pl⟩
    show ((natDecimal now).data ++ '-' :: List.nil) ++ pl =
      (natDecimal now).data ++ '-' :: pl
    rw [List.append_assoc]
    rfl
  rw [hdata, splitChar_prefix _ _ _ (natDecimal_spec now).2]
  simp only [List.nil_append, List.map_cons, List.headD_cons]
  rcases hnd : natDecimal now with ⟨l⟩
  rfl

/-- The numeric key of a created directory is the `Date.now()` reading it
was created with. -/
theorem keyNat_created (now : Nat) (p : String) :
    keyNat (natDecimal now ++ "-" ++ p) = now := by
  rw [keyNat, versionOf_created]
  exact (natDecimal_spec now).1

/-- The unit `create` scaffolds — the directory `"{now}-{pascal title}"`
with empty `up.sql` and `down.sql` — is present in the catalog after the
call. -/
theorem create_mem (now : Nat) (title : String) (fs : List MigUnit) :
    (⟨natDecimal now ++ "-" ++ pascalName title, "", ""⟩ : MigUnit) ∈
      create now title fs := by
  simp only [create]
  split
  · next h =>
    obtain ⟨u, hu, hd⟩ := h
    exact List.mem_map.mpr ⟨u, hu, by rw [if_pos hd]⟩
  · exact List.mem_append.mpr (Or.inr (List.mem_singleton.mpr rfl))

/-- C9 counterexample: `Date.now()` has millisecond resolution, so two
`create` calls within the same millisecond observe the same clock reading
(5 here); the later call's key then equals — is not strictly greater
than — the earlier call's key, and the catalog ends up with two units
sharing key 5. -/
theorem C9_create_key_cex :
    create 5 "drop users" (create 5 "add users" []) =
      [⟨"5-AddUsers", "", ""⟩, ⟨"5-DropUsers", "", ""⟩] ∧
    ((create 5 "drop users" (create 5 "add users" [])).map
        fun u => keyNat u.dirName) = [5, 5] ∧
    ¬ keyNat "5-DropUsers" > keyNat "5-AddUsers" := by
  decide

/-- C9 (amended): the key generated by a `create` call is its `Date.now()`
reading, so keys are non-decreasing across calls of one process (given the
wall clock does not go backwards) and strictly increase only across calls
in distinct milliseconds; each call materializes an empty up/down script
pair at the location `"{key}-{name}"` with the name normalized to
`upperFirst(camelCase(title))`. -/
theorem C9_create_amended (now1 now2 : Nat) (t1 t2 : String)
    (fs : List MigUnit) (hmono : now1 ≤ now2) :
    (⟨natDecimal now2 ++ "-" ++ pascalName t2, "", ""⟩ : MigUnit) ∈
      create now2 t2 (create now1 t1 fs) ∧
    keyNat (natDecimal now1 ++ "-" ++ pascalName t1) = now1 ∧
    keyNat (natDecimal now2 ++ "-" ++ pascalName t2) = now2 ∧
    keyNat (natDecimal now1 ++ "-" ++ pascalName t1) ≤
      keyNat (natDecimal now2 ++ "-" ++ pascalName t2) ∧
    (now1 < now2 →
      keyNat (natDecimal now1 ++ "-" ++ pascalName t1) <
        keyNat (natDecimal now2 ++ "-" ++ pascalName t2)) := by
  refine ⟨create_mem now2 t2 (create now1 t1 fs), keyNat_created _ _,
    keyNat_created _ _, ?_, ?_⟩
  · rw [keyNat_created, keyNat_created]; exact hmono
  · intro h; rw [keyNat_created, keyNat_created]; exact h

/-- Witness for C9 (amended) at concrete inputs: creates at milliseconds 3
and 7 yield keys 3 and 7, in strictly increasing order, and the later unit
is materialized with empty scripts under its pascal-cased name. -/
theorem C9_create_amended_witness :
    (⟨"7-DropCol", "", ""⟩ : MigUnit) ∈
      create 7 "drop col" (create 3 "add users" []) ∧
    keyNat "3-AddUsers" = 3 ∧
    keyNat "7-DropCol" = 7 ∧
    keyNat "3-AddUsers" ≤ keyNat "7-DropCol" ∧
    (3 < 7 → keyNat "3-AddUsers" < keyNat "7-DropCol") :=
  C9_create_amended 3 7 "add users" "drop col" [] (by decide)
